import Mathlib

/-
Verification of the result-aggregation and reporting pipeline of the q2-gunc
plugin.

The filesystem objects the plugin manipulates are modelled shallowly: a
result directory (`GUNCResultsDirectoryFormat`) is a flat list of relative
file paths (lists of name components) paired with file contents.  Directories
exist implicitly as proper prefixes of file paths; an empty directory is not
representable, so "`gunc_output` exists and is a directory" is rendered as
"some file lies strictly below `gunc_output`".  Tabular file contents are
modelled already parsed (as pandas would deliver them), with cells that are
native booleans, integers, or strings.
-/

set_option maxRecDepth 8000

namespace Q2Gunc

/-- A relative filesystem path: a list of name components. -/
abbrev RPath := List String

/-- A cell of a parsed GUNC TSV table, as pandas delivers it after dtype
inference: a native boolean, an integer, or a string. -/
inductive CellValue where
  | boolVal : Bool → CellValue
  | intVal : Int → CellValue
  | strVal : String → CellValue
  deriving DecidableEq

/-- Python truthiness, as applied by the `bool(...)` cast on
`row["pass.GUNC"]` in `_process_sample` (gunc.py line 191): native booleans
pass through, integers are truthy iff nonzero, strings are truthy iff
nonempty. -/
def pyBool : CellValue → Bool
  | CellValue.boolVal b => b
  | CellValue.intVal n => !(n == 0)
  | CellValue.strVal s => !(s == "")

/-- One data row of a `*.all_levels.tsv` file, carrying the 13 fixed GUNC
columns (the `pass.GUNC` column is the field `passGUNC`). -/
structure GUNCRow where
  genome : CellValue
  n_genes_called : CellValue
  n_genes_mapped : CellValue
  n_contigs : CellValue
  taxonomic_level : CellValue
  proportion_genes_retained_in_major_clades : CellValue
  genes_retained_index : CellValue
  clade_separation_score : CellValue
  contamination_portion : CellValue
  n_effective_surplus_clades : CellValue
  mean_hit_identity : CellValue
  reference_representation_score : CellValue
  passGUNC : CellValue
  deriving DecidableEq

/-- A parsed `*.all_levels.tsv` file: the list of its data rows. -/
structure GUNCFile where
  rows : List GUNCRow
  deriving DecidableEq

/-- Model of `GUNCResultsDirectoryFormat` (types/_format.py): one result
directory, as the flat list of its files (relative path, content).  The
content type is a parameter: `String` when only raw bytes matter (collation),
`GUNCFile` when the summary tables are read. -/
structure GUNCResultsDirectoryFormat (α : Type) where
  files : List (RPath × α)
  deriving DecidableEq

/-- Models `subdir = self.path / "gunc_output"; subdir.exists() and subdir.is_dir()`
(_format.py lines 104-105): some file lies strictly below a top-level
`gunc_output` component. -/
def guncOutputIsDir {α : Type} (d : GUNCResultsDirectoryFormat α) : Bool :=
  d.files.any (fun f => f.1.head? == some ("gunc_output") && decide (2 ≤ f.1.length))

/-- The names yielded by `self.path.iterdir()` (_format.py line 109): the
distinct first components of the file paths (each top-level child — directory
or plain file — appears once). -/
def topLevelNames {α : Type} (d : GUNCResultsDirectoryFormat α) : List String :=
  (d.files.filterMap (fun f => f.1.head?)).dedup

/-- Models `GUNCResultsDirectoryFormat.file_dict` (_format.py lines 103-111):
`{"": root}` when `gunc_output` is a directory directly under the root,
otherwise one entry per top-level child of the root, mapping the child's name
to its path.  Paths are relative to the root: `[]` is the root itself, `[n]`
the child named `n`. -/
def file_dict {α : Type} (d : GUNCResultsDirectoryFormat α) : List (String × RPath) :=
  if guncOutputIsDir d then [(("" : String), ([] : RPath))]
  else (topLevelNames d).map (fun n => (n, [n]))

/-- Models `GUNCResultsFormat.COLUMNS` (_format.py lines 20-34). -/
def COLUMNS : List String :=
  ["genome", "n_genes_called", "n_genes_mapped", "n_contigs", "taxonomic_level",
   "proportion_genes_retained_in_major_clades", "genes_retained_index",
   "clade_separation_score", "contamination_portion",
   "n_effective_surplus_clades", "mean_hit_identity",
   "reference_representation_score", "pass.GUNC"]

/-- Models `GUNCResultsFormat._validate_` (_format.py lines 36-41) applied to the
header `cols` of the parsed file (pandas `df.columns`): raise
`ValidationError` unless `set(COLUMNS) == set(df.columns)`. -/
def validateGUNCResults (cols : List String) : Except String Unit :=
  if COLUMNS.toFinset = cols.toFinset then Except.ok ()
  else Except.error ("GUNC results file does not contain expected columns.")

/-- Content of the file at exact relative path `p`, if any. -/
def findFile {α : Type} (fs : List (RPath × α)) (p : RPath) : Option α :=
  (fs.find? (fun f => f.1 == p)).map (fun f => f.2)

/-- Left-biased choice between optional values. -/
def orElseO {α : Type} (a b : Option α) : Option α :=
  match a with
  | some x => some x
  | none => b

/-- The subtree rooted at relative path `q`: every file under `q`, with `q`
stripped.  This is what `shutil.copytree` reads from `sample_path`. -/
def subtreeFiles {α : Type} (fs : List (RPath × α)) (q : RPath) : List (RPath × α) :=
  (fs.filter (fun f => q.isPrefixOf f.1)).map (fun f => (f.1.drop q.length, f.2))

/-- Models `output.path / sample_id`: pathlib drops an empty component, so joining
the root with the empty sample identifier yields the root itself. -/
def joinSample (sid : String) : RPath :=
  if sid = "" then [] else [sid]

/-- Models `shutil.copytree(src, dst, dirs_exist_ok=True)` on the flat model: every
source file lands at its relative path inside `dst`, overwriting any existing
file there; destination files at other paths survive.  (A collision between a
file and a directory at the same path raises in `shutil`; trees with such
collisions are excluded by the well-formedness hypotheses of the collation
theorems.) -/
def copytreeInto {α : Type} (dst src : List (RPath × α)) : List (RPath × α) :=
  dst.filter (fun f => !(src.any (fun g => g.1 == f.1))) ++ src

/-- One iteration of the outer loop of `collate_gunc_results` (gunc.py lines
253-255): for each `(sample_id, sample_path)` of the input's `file_dict`,
copy the sample subtree into the output at `output.path / sample_id`. -/
def collateStep {α : Type} (acc : List (RPath × α))
    (r : GUNCResultsDirectoryFormat α) : List (RPath × α) :=
  (file_dict r).foldl
    (fun acc2 sp =>
      copytreeInto acc2
        ((subtreeFiles r.files sp.2).map (fun f => (joinSample sp.1 ++ f.1, f.2))))
    acc

/-- Models `collate_gunc_results` (gunc.py lines 248-256): fold the inputs in order
into a fresh empty output directory. -/
def collate_gunc_results {α : Type}
    (results : List (GUNCResultsDirectoryFormat α)) :
    GUNCResultsDirectoryFormat α :=
  { files := results.foldl collateStep [] }

/-- Well-formed on-disk paths: every file path is nonempty and its first
component is a nonempty name. -/
abbrev wfPaths {α : Type} (d : GUNCResultsDirectoryFormat α) : Prop :=
  ∀ f ∈ d.files, f.1 ≠ [] ∧ f.1.head? ≠ some ("")

/-- Does the first component of `p` occur in `ns`?  Used to describe which
per-sample copy step can touch the path `p`. -/
def headIn (p : RPath) (ns : List String) : Bool :=
  ns.any (fun n => p.head? == some n)

/-- Models `s.endswith(suffix)` on the character level. -/
def strEndsWith (s suffix : String) : Bool :=
  suffix.toList.isSuffixOf s.toList

/-- Models `s.startswith(pre)` on the character level. -/
def strStartsWith (s pre : String) : Bool :=
  pre.toList.isPrefixOf s.toList

/-- Is `pat` a contiguous substring of the given character list? -/
def containsSubstring (pat : List Char) : List Char → Bool
  | [] => pat.isEmpty
  | c :: rest => pat.isPrefixOf (c :: rest) || containsSubstring pat rest

/-- Filename match for the pattern `*.all_levels.tsv` as used by
`pathlib.Path.glob` in `_process_sample` (gunc.py line 178): fnmatch-style,
with no special casing of leading dots. -/
def isAllLevelsName (s : String) : Bool :=
  strEndsWith s (".all_levels.tsv")

/-- Does the relative path `p` match `gunc_output/*.all_levels.tsv` relative
to the sample path `spath` (a direct, non-recursive match)? -/
def matchesAllLevels (spath : RPath) (p : RPath) : Bool :=
  (p.take (spath.length + 1) == spath ++ ["gunc_output"]) &&
  (p.length == spath.length + 2) &&
  (match p.getLast? with
   | some nm => isAllLevelsName nm
   | none => false)

/-- Same match as performed by the `glob.glob` module call in
`_read_dataframes` (_transformer.py line 43), which additionally skips names
with a leading dot. -/
def matchesAllLevelsGlob (spath : RPath) (p : RPath) : Bool :=
  (p.take (spath.length + 1) == spath ++ ["gunc_output"]) &&
  (p.length == spath.length + 2) &&
  (match p.getLast? with
   | some nm => isAllLevelsName nm && !(strStartsWith nm ("."))
   | none => false)

/-- Models `Path(sample_path).glob("gunc_output/*.all_levels.tsv")`: the matching
files with their contents, in directory order. -/
def globAllLevelsFiles {α : Type} (fs : List (RPath × α)) (spath : RPath) :
    List (RPath × α) :=
  fs.filter (fun f => matchesAllLevels spath f.1)

/-- Models `glob.glob(f"{sample_fp}/gunc_output/*.all_levels.tsv")`. -/
def globAllLevelsGlob {α : Type} (fs : List (RPath × α)) (spath : RPath) :
    List (RPath × α) :=
  fs.filter (fun f => matchesAllLevelsGlob spath f.1)

/-- Models `(Path(sample_path) / "diamond_output").glob("*")` (gunc.py lines
199-201): the names of the entries of the sample's `diamond_output`
collection, in directory order.  The modeled result layout holds plain files
directly inside `diamond_output` (regex `diamond_output/.*.out` in
_format.py), so the children are the file names at that depth. -/
def diamondOutputNames {α : Type} (fs : List (RPath × α)) (spath : RPath) :
    List String :=
  fs.filterMap (fun f =>
    if (f.1.take (spath.length + 1) == spath ++ ["diamond_output"]) &&
        (f.1.length == spath.length + 2) then
      f.1.getLast?
    else none)

/-- Models `result_file.name.split(".")[0]` (gunc.py line 202): the filename up to
(excluding) its first period. -/
def magIdOf (name : String) : String :=
  String.mk (name.toList.takeWhile (fun c => !(c == '.')))

/-- One entry of `summary_data` as assembled by `_process_sample` (gunc.py
lines 182-197). -/
structure SummaryRecord where
  sample_id : String
  mag_id : CellValue
  taxonomic_level : CellValue
  reference_representation_score : CellValue
  contamination_portion : CellValue
  pass_gunc : Bool
  n_contigs : CellValue
  n_genes_mapped : CellValue
  clade_separation_score : CellValue
  genes_retained_index : CellValue
  deriving DecidableEq

/-- The dict literal of gunc.py lines 183-196, built from one table row:
every field is copied verbatim except `pass_gunc`, which applies the Python
`bool(...)` cast. -/
def mkSummaryRecord (sample_id : String) (row : GUNCRow) : SummaryRecord :=
  { sample_id := sample_id
    mag_id := row.genome
    taxonomic_level := row.taxonomic_level
    reference_representation_score := row.reference_representation_score
    contamination_portion := row.contamination_portion
    pass_gunc := pyBool row.passGUNC
    n_contigs := row.n_contigs
    n_genes_mapped := row.n_genes_mapped
    clade_separation_score := row.clade_separation_score
    genes_retained_index := row.genes_retained_index }

/-- Models `_process_sample` (gunc.py lines 173-212): collect one `SummaryRecord`
per row of every matching summary file, and one genome identifier per entry
of the `diamond_output` collection.  The plot copy/synthesis side effects
(lines 204-210) touch only the report output directory and do not influence
the returned triple `(sample_id, sample_mags, summary_data)`, which is
modelled in full. -/
def process_sample (sample_id : String) (fs : List (RPath × GUNCFile))
    (spath : RPath) : String × List String × List SummaryRecord :=
  let summary_data := (globAllLevelsFiles fs spath).flatMap
    (fun sf => sf.2.rows.map (fun row => mkSummaryRecord sample_id row))
  let sample_mags := (diamondOutputNames fs spath).map magIdOf
  (sample_id, sample_mags, summary_data)

/-- Models `_read_dataframes` (_transformer.py lines 25-56): walk `file_dict`, glob
each sample's summary files, and raise `ValueError("No GUNC results found in
the directory format")` when no file matched anywhere; otherwise concatenate
the parsed tables (each row tagged with its sample identifier; the synthetic
`genome_i` index column and the string cast of `pass.GUNC` are not modelled,
as no claim concerns them). -/
def read_dataframes (d : GUNCResultsDirectoryFormat GUNCFile) :
    Except String (List (String × GUNCRow)) :=
  if ((file_dict d).flatMap
      (fun sp => (globAllLevelsGlob d.files sp.2).map (fun mf => (sp.1, mf.2)))).isEmpty
  then
    Except.error ("No GUNC results found in the directory format")
  else
    Except.ok (((file_dict d).flatMap
        (fun sp => (globAllLevelsGlob d.files sp.2).map (fun mf => (sp.1, mf.2)))).flatMap
      (fun fr => fr.2.rows.map (fun row => (fr.1, row))))

/-- Character-wise lowercasing, for the spec-side coercion. -/
def strToLower (s : String) : String :=
  String.mk (s.toList.map Char.toLower)

/-- Modelled from the spec (not from the code): the permissive pass/fail
coercion the specification prescribes for the summary extractor —
case-insensitive strings "true", "pass", "1", "yes" coerce to true, any
other string to false, native booleans pass through unchanged.  Stated here
only to be compared against the code's actual `bool(...)` cast (`pyBool`). -/
def specPassCoerce : CellValue → Bool
  | CellValue.boolVal b => b
  | CellValue.intVal n => !(n == 0)
  | CellValue.strVal s => ["true", "pass", "1", "yes"].contains (strToLower s)

/-- Models `samples[sample_id] = sample_mags` (gunc.py line 275): Python dict
assignment on an association list (replace if present, else append). -/
def dictInsert {α : Type} (m : List (String × α)) (k : String) (v : α) :
    List (String × α) :=
  if m.any (fun kv => kv.1 == k) then
    m.map (fun kv => if kv.1 == k then (k, v) else kv)
  else m ++ [(k, v)]

/-- One completed future of the `visualize` loop (gunc.py lines 273-276):
insert the sample's genome list into `samples` and extend `summary_data`. -/
def visualizeStep (d : GUNCResultsDirectoryFormat GUNCFile)
    (acc : List (String × List String) × List SummaryRecord)
    (sp : String × RPath) : List (String × List String) × List SummaryRecord :=
  let res := process_sample sp.1 d.files sp.2
  (dictInsert acc.1 res.1 res.2.1, acc.2 ++ res.2.2)

/-- The aggregation performed by `visualize` (gunc.py lines 263-276): the
futures complete in some order (`as_completed`); the pool size influences
only this completion order, which is therefore the model's explicit
parameter.  `order` ranges over permutations of `file_dict`. -/
def visualizeAgg (d : GUNCResultsDirectoryFormat GUNCFile)
    (order : List (String × RPath)) :
    List (String × List String) × List SummaryRecord :=
  order.foldl (visualizeStep d) ([], [])

end Q2Gunc

namespace Q2Gunc

/-- Concrete directory for C7: a root holding one stray plain file and
nothing else (no `gunc_output`, no subdirectories). -/
def strayFileDir : GUNCResultsDirectoryFormat String :=
  { files := [(["stray.txt"], "x")] }

/-- Concrete directory for C9: a root with a sample subdirectory and a plain
top-level file. -/
def mixedChildrenDir : GUNCResultsDirectoryFormat String :=
  { files := [(["sampleA", "gunc_output", "g1.all_levels.tsv"], "t"),
              (["notes.txt"], "x")] }

/-- Concrete collation input for C2: sample `A` with a summary file (to be
overwritten) and a diamond output file (non-colliding). -/
def collateInput1 : GUNCResultsDirectoryFormat String :=
  { files := [(["A", "gunc_output", "g1.all_levels.tsv"], "old"),
              (["A", "diamond_output", "g2.out"], "keep")] }

/-- Concrete collation input for C2: sample `A` with a colliding summary
file. -/
def collateInput2 : GUNCResultsDirectoryFormat String :=
  { files := [(["A", "gunc_output", "g1.all_levels.tsv"], "new")] }

/-- Concrete unpartitioned input for C10. -/
def unpartitionedDir : GUNCResultsDirectoryFormat String :=
  { files := [(["gunc_output", "g1.all_levels.tsv"], "t")] }

/-- A summary-table row with a given `pass.GUNC` cell (the other cells are
fixed, plausible values). -/
def baseRow (v : CellValue) : GUNCRow :=
  { genome := CellValue.strVal ("g1")
    n_genes_called := CellValue.intVal 1100
    n_genes_mapped := CellValue.intVal 1000
    n_contigs := CellValue.intVal 17
    taxonomic_level := CellValue.strVal ("kingdom")
    proportion_genes_retained_in_major_clades := CellValue.strVal ("0.95")
    genes_retained_index := CellValue.strVal ("0.9")
    clade_separation_score := CellValue.strVal ("0.1")
    contamination_portion := CellValue.strVal ("0.05")
    n_effective_surplus_clades := CellValue.strVal ("0.2")
    mean_hit_identity := CellValue.strVal ("0.97")
    reference_representation_score := CellValue.strVal ("0.98")
    passGUNC := v }

/-- Concrete directory for C1: one summary file whose four rows carry the
`pass.GUNC` strings "fail", "false", "no" and "0". -/
def passStringsDir : GUNCResultsDirectoryFormat GUNCFile :=
  { files := [(["s1", "gunc_output", "g1.all_levels.tsv"],
      { rows := [baseRow (CellValue.strVal ("fail")),
                 baseRow (CellValue.strVal ("false")),
                 baseRow (CellValue.strVal ("no")),
                 baseRow (CellValue.strVal ("0"))] })] }

/-- Concrete directory for C8: one diamond output file for genome `g2` and
no summary file at all (zero summary rows for that genome). -/
def diamondOnlyDir : GUNCResultsDirectoryFormat GUNCFile :=
  { files := [(["s1", "diamond_output", "g2.contigs.out"], { rows := [] })] }

/-- Concrete directory for C8: the same diamond output plus a summary file
with a row (different summary-record count, same diamond collection). -/
def diamondPlusDir : GUNCResultsDirectoryFormat GUNCFile :=
  { files := [(["s1", "diamond_output", "g2.contigs.out"], { rows := [] }),
              (["s1", "gunc_output", "g2.all_levels.tsv"],
                { rows := [baseRow (CellValue.boolVal true)] })] }

/-- Concrete directory for C3: two samples with diamond outputs and summary
files of different row counts. -/
def twoSampleDir : GUNCResultsDirectoryFormat GUNCFile :=
  { files := [(["s1", "gunc_output", "g1.all_levels.tsv"],
                { rows := [baseRow (CellValue.boolVal true)] }),
              (["s1", "diamond_output", "g1.contigs.out"], { rows := [] }),
              (["s2", "gunc_output", "g2.all_levels.tsv"],
                { rows := [baseRow (CellValue.boolVal false),
                           baseRow (CellValue.boolVal true)] }),
              (["s2", "diamond_output", "g2.contigs.out"], { rows := [] })] }

end Q2Gunc

namespace Q2Gunc

/-- C5: `_validate_` errors with the fixed message exactly when the parsed
column set differs from the fixed 13-column set; in particular a header
missing an expected column is always rejected, never silently skipped. -/
theorem validate_columns_iff (cols : List String) :
    (validateGUNCResults cols
        = Except.error ("GUNC results file does not contain expected columns.")
      ↔ cols.toFinset ≠ COLUMNS.toFinset)
    ∧ (∀ c ∈ COLUMNS, c ∉ cols →
        validateGUNCResults cols
          = Except.error ("GUNC results file does not contain expected columns.")) := by
  constructor
  · unfold validateGUNCResults
    by_cases h : COLUMNS.toFinset = cols.toFinset
    · rw [if_pos h]
      constructor
      · intro he
        exact Except.noConfusion he
      · intro hne
        exact absurd h.symm hne
    · rw [if_neg h]
      constructor
      · intro _ hc
        exact h hc.symm
      · intro _
        rfl
  · intro c hc hcol
    unfold validateGUNCResults
    have h : COLUMNS.toFinset ≠ cols.toFinset := by
      intro he
      apply hcol
      have : c ∈ cols.toFinset := he ▸ (List.mem_toFinset.mpr hc)
      exact List.mem_toFinset.mp this
    simp [h]

/-- C5 witness: a header consisting of only `genome` is rejected with the
expected message. -/
theorem validate_columns_iff_witness :
    validateGUNCResults (["genome"])
      = Except.error ("GUNC results file does not contain expected columns.") :=
  (validate_columns_iff (["genome"])).1.mpr (by decide)

/-- C6: a root that contains a `gunc_output` subdirectory directly under it
(some file lies strictly below `gunc_output`) is classified as unpartitioned:
`file_dict` is exactly the single-entry mapping from the empty sample
identifier to the root. -/
theorem file_dict_unpartitioned {α : Type} (d : GUNCResultsDirectoryFormat α)
    (h : ∃ f ∈ d.files, f.1.head? = some ("gunc_output") ∧ 2 ≤ f.1.length) :
    file_dict d = [(("" : String), ([] : RPath))] := by
  have hg : guncOutputIsDir d = true := by
    obtain ⟨f, hf, h1, h2⟩ := h
    unfold guncOutputIsDir
    rw [List.any_eq_true]
    exact ⟨f, hf, by simp [h1, h2]⟩
  unfold file_dict
  rw [if_pos hg]

/-- C6 witness: a concrete unpartitioned root. -/
theorem file_dict_unpartitioned_witness :
    file_dict ({ files := [(["gunc_output", "g1.all_levels.tsv"], "t")] } :
        GUNCResultsDirectoryFormat String)
      = [(("" : String), ([] : RPath))] :=
  file_dict_unpartitioned _ (by decide)

/-- C7 counterexample: `strayFileDir` contains neither a `gunc_output`
subdirectory nor any subdirectory at all (every file path has one component),
yet `file_dict` is not the empty mapping — the stray plain file is listed. -/
theorem file_dict_empty_claim_counterexample :
    (¬ ∃ f ∈ strayFileDir.files, f.1.head? = some ("gunc_output") ∧ 2 ≤ f.1.length)
    ∧ (¬ ∃ f ∈ strayFileDir.files, 2 ≤ f.1.length)
    ∧ file_dict strayFileDir ≠ [] := by
  refine ⟨by decide, by decide, ?_⟩
  decide

/-- C7 amended: enumeration of a root with no entries at all returns the
empty mapping (and, being a total function, raises nothing). -/
theorem file_dict_empty_root {α : Type} (d : GUNCResultsDirectoryFormat α)
    (h : d.files = []) :
    file_dict d = [] := by
  unfold file_dict guncOutputIsDir topLevelNames
  rw [h]
  rfl

/-- C7 amended witness: the enumeration of a concrete empty root. -/
theorem file_dict_empty_root_witness :
    file_dict ({ files := [] } : GUNCResultsDirectoryFormat String) = [] :=
  file_dict_empty_root _ rfl

/-- C9: when the root has no `gunc_output` subdirectory, `file_dict` has one
entry for every top-level child of the root — plain files included — mapping
the child's name to its path. -/
theorem file_dict_lists_all_children {α : Type} (d : GUNCResultsDirectoryFormat α)
    (hg : guncOutputIsDir d = false) (n : String) :
    ((n, ([n] : RPath)) ∈ file_dict d) ↔ ∃ f ∈ d.files, f.1.head? = some n := by
  unfold file_dict
  rw [if_neg (by simp [hg])]
  constructor
  · intro hmem
    obtain ⟨m, hm, heq⟩ := List.mem_map.mp hmem
    have hmn : m = n := (Prod.mk.injEq _ _ _ _).mp heq |>.1
    subst hmn
    have := List.mem_dedup.mp hm
    obtain ⟨f, hf, hh⟩ := List.mem_filterMap.mp this
    exact ⟨f, hf, hh⟩
  · intro ⟨f, hf, hh⟩
    apply List.mem_map.mpr
    refine ⟨n, ?_, rfl⟩
    apply List.mem_dedup.mpr
    exact List.mem_filterMap.mpr ⟨f, hf, hh⟩

/-- C9 witness: in `mixedChildrenDir`, the stray top-level plain file
`notes.txt` is reported as a sample by the enumeration. -/
theorem file_dict_lists_all_children_witness :
    (("notes.txt", (["notes.txt"] : RPath)) ∈ file_dict mixedChildrenDir) :=
  (file_dict_lists_all_children mixedChildrenDir (by decide) ("notes.txt")).mpr
    (by decide)

theorem orElseO_none {α : Type} (a : Option α) : orElseO a none = a := by
  cases a <;> rfl

theorem orElseO_none_left {α : Type} (b : Option α) : orElseO none b = b := rfl

theorem orElseO_idem_assoc {α : Type} (a b : Option α) :
    orElseO a (orElseO a b) = orElseO a b := by
  cases a <;> rfl

theorem findFile_nil {α : Type} (p : RPath) :
    findFile ([] : List (RPath × α)) p = none := rfl

theorem findFile_isSome_iff {α : Type} (fs : List (RPath × α)) (p : RPath) :
    (findFile fs p).isSome ↔ ∃ f ∈ fs, f.1 = p := by
  unfold findFile
  have h : ((fs.find? (fun f => f.1 == p)).map (fun f => f.2)).isSome
      = (fs.find? (fun f => f.1 == p)).isSome := by
    cases fs.find? (fun f => f.1 == p) <;> rfl
  rw [h]
  rw [List.find?_isSome]
  constructor
  · intro ⟨f, hf, he⟩
    exact ⟨f, hf, by simpa using he⟩
  · intro ⟨f, hf, he⟩
    exact ⟨f, hf, by simpa using he⟩

theorem findFile_copytreeInto {α : Type} (dst src : List (RPath × α)) (p : RPath) :
    findFile (copytreeInto dst src) p = orElseO (findFile src p) (findFile dst p) := by
  induction dst with
  | nil =>
      show findFile src p = _
      rw [findFile_nil, orElseO_none]
  | cons f rest ih =>
      unfold copytreeInto at ih ⊢
      cases hq : src.any (fun g => g.1 == f.1) with
      | true =>
          rw [List.filter_cons_of_neg (by simp [hq])]
          by_cases hfp : f.1 = p
          · have hs : (findFile src p).isSome := by
              obtain ⟨g, hg, hge⟩ := List.any_eq_true.mp hq
              have hgp : g.1 = p := by
                have hgf : g.1 = f.1 := by simpa using hge
                rw [hgf, hfp]
              exact (findFile_isSome_iff src p).mpr ⟨g, hg, hgp⟩
            obtain ⟨c, hc⟩ := Option.isSome_iff_exists.mp hs
            rw [ih, hc]
            rfl
          · have hcons : findFile (f :: rest) p = findFile rest p := by
              unfold findFile
              rw [List.find?_cons_of_neg _ (by simp [hfp])]
            rw [ih, hcons]
      | false =>
          rw [List.filter_cons_of_pos (by simp [hq]), List.cons_append]
          by_cases hfp : f.1 = p
          · have hsrc : findFile src p = none := by
              unfold findFile
              rw [List.find?_eq_none.mpr]
              · rfl
              · intro g hg hgp
                have hgp' : g.1 = f.1 := by
                  have : g.1 = p := by simpa using hgp
                  rw [this, hfp]
                have : src.any (fun g => g.1 == f.1) = true :=
                  List.any_eq_true.mpr ⟨g, hg, by simp [hgp']⟩
                rw [hq] at this
                exact Bool.false_ne_true this
            have hL : findFile (f :: (rest.filter
                (fun f => !(src.any (fun g => g.1 == f.1))) ++ src)) p = some f.2 := by
              unfold findFile
              rw [List.find?_cons_of_pos _ (by simp [hfp])]
              rfl
            have hR : findFile (f :: rest) p = some f.2 := by
              unfold findFile
              rw [List.find?_cons_of_pos _ (by simp [hfp])]
              rfl
            rw [hL, hR, hsrc]
            rfl
          · have hL : findFile (f :: (rest.filter
                (fun f => !(src.any (fun g => g.1 == f.1))) ++ src)) p
                = findFile (rest.filter
                    (fun f => !(src.any (fun g => g.1 == f.1))) ++ src) p := by
              unfold findFile
              rw [List.find?_cons_of_neg _ (by simp [hfp])]
            have hR : findFile (f :: rest) p = findFile rest p := by
              unfold findFile
              rw [List.find?_cons_of_neg _ (by simp [hfp])]
            rw [hL, hR, ih]

theorem findFile_filter_of {α : Type} (fs : List (RPath × α)) (q : RPath × α → Bool)
    (p : RPath) (h : ∀ f ∈ fs, f.1 = p → q f = true) :
    findFile (fs.filter q) p = findFile fs p := by
  induction fs with
  | nil => rfl
  | cons f rest ih =>
      have hrest : ∀ g ∈ rest, g.1 = p → q g = true :=
        fun g hg => h g (List.mem_cons_of_mem f hg)
      by_cases hfp : f.1 = p
      · have hq : q f = true := h f (List.mem_cons_self f rest) hfp
        rw [List.filter_cons_of_pos hq]
        unfold findFile
        rw [List.find?_cons_of_pos _ (by simp [hfp]),
          List.find?_cons_of_pos _ (by simp [hfp])]
      · cases hq : q f with
        | true =>
            rw [List.filter_cons_of_pos hq]
            have hL : findFile (f :: rest.filter q) p = findFile (rest.filter q) p := by
              unfold findFile
              rw [List.find?_cons_of_neg _ (by simp [hfp])]
            have hR : findFile (f :: rest) p = findFile rest p := by
              unfold findFile
              rw [List.find?_cons_of_neg _ (by simp [hfp])]
            rw [hL, hR, ih hrest]
        | false =>
            rw [List.filter_cons_of_neg (by simp [hq])]
            have hR : findFile (f :: rest) p = findFile rest p := by
              unfold findFile
              rw [List.find?_cons_of_neg _ (by simp [hfp])]
            rw [hR, ih hrest]

theorem findFile_eq_none_of_head {α : Type} (fs : List (RPath × α)) (n : String)
    (p : RPath) (hall : ∀ f ∈ fs, f.1.head? = some n) (hp : p.head? ≠ some n) :
    findFile fs p = none := by
  unfold findFile
  rw [List.find?_eq_none.mpr]
  · rfl
  · intro f hf hfp
    have he : f.1 = p := by simpa using hfp
    exact hp (he ▸ hall f hf)

theorem chunk_eq_filter_head {α : Type} (fs : List (RPath × α)) (n : String)
    (hn : n ≠ "") :
    ((subtreeFiles fs [n]).map (fun f => (joinSample n ++ f.1, f.2)))
      = fs.filter (fun f => f.1.head? == some n) := by
  have hj : joinSample n = [n] := by
    unfold joinSample
    rw [if_neg hn]
  unfold subtreeFiles
  rw [List.map_map]
  have hfe : ∀ f ∈ fs, (([n] : RPath).isPrefixOf f.1) = (f.1.head? == some n) := by
    intro f _
    cases hf : f.1 with
    | nil => rfl
    | cons a t =>
        show ((n == a) && (([] : RPath).isPrefixOf t)) = (some a == some n)
        rw [Bool.eq_iff_iff]
        simp only [Bool.and_eq_true, beq_iff_eq, List.isPrefixOf, and_true,
          Option.some.injEq]
        exact ⟨fun h => h.symm, fun h => h.symm⟩
  rw [List.filter_congr hfe]
  have hid : ∀ f ∈ fs.filter (fun f => f.1.head? == some n),
      ((fun f : RPath × α => (joinSample n ++ f.1, f.2))
        ∘ (fun f : RPath × α => (f.1.drop ([n] : RPath).length, f.2))) f = f := by
    intro f hf
    have hhead : f.1.head? = some n := by
      simpa using (List.mem_filter.mp hf).2
    obtain ⟨fp, fc⟩ := f
    cases fp with
    | nil => simp at hhead
    | cons a t =>
        have han : a = n := by simpa using hhead
        show (joinSample n ++ (a :: t).drop 1, fc) = (a :: t, fc)
        rw [hj, han]
        rfl
  rw [List.map_congr_left hid]
  exact List.map_id' _

theorem findFile_chunkFold {α : Type} (fs : List (RPath × α))
    (hw : ∀ f ∈ fs, f.1 ≠ [] ∧ f.1.head? ≠ some ("")) :
    ∀ (ns : List String), (∀ n ∈ ns, n ≠ "") →
      ∀ (acc : List (RPath × α)) (p : RPath),
      findFile ((ns.map (fun n => (n, ([n] : RPath)))).foldl
          (fun acc2 sp =>
            copytreeInto acc2
              ((subtreeFiles fs sp.2).map (fun f => (joinSample sp.1 ++ f.1, f.2))))
          acc) p
        = if headIn p ns then
            orElseO (findFile (fs.filter (fun f => f.1.head? == p.head?)) p)
              (findFile acc p)
          else findFile acc p := by
  intro ns
  induction ns with
  | nil =>
      intro _ acc p
      rw [List.map_nil, List.foldl_nil, if_neg (by simp [headIn])]
  | cons n ns ih =>
      intro hns acc p
      rw [List.map_cons, List.foldl_cons]
      have hn : n ≠ "" := hns n (List.mem_cons_self n ns)
      simp only [show ((n, ([n] : RPath)).1) = n from rfl,
        show ((n, ([n] : RPath)).2) = ([n] : RPath) from rfl]
      rw [ih (fun m hm => hns m (List.mem_cons_of_mem n hm))]
      have hacc1 : findFile (copytreeInto acc
            ((subtreeFiles fs [n]).map (fun f => (joinSample n ++ f.1, f.2)))) p
          = orElseO (findFile (fs.filter (fun f => f.1.head? == some n)) p)
              (findFile acc p) := by
        rw [findFile_copytreeInto, chunk_eq_filter_head fs n hn]
      by_cases hpn : p.head? = some n
      · have hcondtrue : headIn p (n :: ns) = true := by
          simp [headIn, hpn]
        have hfilter_eq : (fs.filter (fun f => f.1.head? == some n))
            = fs.filter (fun f => f.1.head? == p.head?) := by rw [hpn]
        rw [hacc1, hfilter_eq, if_pos hcondtrue]
        by_cases hin : headIn p ns = true
        · rw [if_pos hin]
          exact orElseO_idem_assoc _ _
        · rw [if_neg hin]
      · have hver : findFile (fs.filter (fun f => f.1.head? == some n)) p = none := by
          apply findFile_eq_none_of_head _ n
          · intro f hf
            simpa using (List.mem_filter.mp hf).2
          · exact hpn
        have hbeq : (p.head? == some n) = false := by
          simpa using hpn
        have hcond : headIn p (n :: ns) = headIn p ns := by
          simp [headIn, List.any_cons, hbeq]
        rw [hacc1, hver, orElseO_none_left, hcond]

theorem findFile_collateStep {α : Type} (r : GUNCResultsDirectoryFormat α)
    (hw : wfPaths r) (acc : List (RPath × α)) (p : RPath) :
    findFile (collateStep acc r) p
      = orElseO (findFile r.files p) (findFile acc p) := by
  unfold collateStep file_dict
  by_cases hg : guncOutputIsDir r = true
  · rw [if_pos hg, List.foldl_cons, List.foldl_nil]
    simp only [show ((("" : String), ([] : RPath)).1) = ("" : String) from rfl,
      show ((("" : String), ([] : RPath)).2) = ([] : RPath) from rfl]
    have hid : ((subtreeFiles r.files []).map
          (fun f => (joinSample ("") ++ f.1, f.2))) = r.files := by
      unfold subtreeFiles
      have h1 : ∀ f ∈ r.files, (([] : RPath).isPrefixOf f.1) = true := by
        intro f _
        cases f.1 <;> rfl
      rw [List.filter_congr h1, List.filter_true, List.map_map]
      have h2 : ((fun f : RPath × α => (joinSample ("") ++ f.1, f.2))
          ∘ (fun f : RPath × α => (f.1.drop ([] : RPath).length, f.2))) = id := by
        funext f
        show (joinSample ("") ++ f.1.drop 0, f.2) = f
        simp [joinSample]
      rw [h2, List.map_id]
    rw [hid, findFile_copytreeInto]
  · rw [if_neg hg]
    have hne : ∀ n ∈ topLevelNames r, n ≠ "" := by
      intro n hn he
      obtain ⟨f, hf, hh⟩ := List.mem_filterMap.mp (List.mem_dedup.mp hn)
      exact (hw f hf).2 (by rw [hh, he])
    rw [findFile_chunkFold r.files hw (topLevelNames r) hne acc p]
    by_cases hhead : headIn p (topLevelNames r) = true
    · rw [if_pos hhead]
      have hfe : findFile (r.files.filter (fun f => f.1.head? == p.head?)) p
          = findFile r.files p := by
        apply findFile_filter_of
        intro f _ he
        rw [he]
        simp
      rw [hfe]
    · rw [if_neg hhead]
      have hnone : findFile r.files p = none := by
        unfold findFile
        rw [List.find?_eq_none.mpr]
        · rfl
        · intro f hf hfp
          have hfp' : f.1 = p := by simpa using hfp
          cases hp : p.head? with
          | none =>
              have : f.1 = [] := by
                rw [hfp']
                exact List.head?_eq_none_iff.mp hp
              exact (hw f hf).1 this
          | some h0 =>
              apply hhead
              have hmem : h0 ∈ topLevelNames r := by
                apply List.mem_dedup.mpr
                exact List.mem_filterMap.mpr ⟨f, hf, by rw [hfp', hp]⟩
              exact List.any_eq_true.mpr ⟨h0, hmem, by simp [hp]⟩
      rw [hnone, orElseO_none_left]

theorem findFile_collate_pair {α : Type} (r1 r2 : GUNCResultsDirectoryFormat α)
    (hw1 : wfPaths r1) (hw2 : wfPaths r2) (p : RPath) :
    findFile (collate_gunc_results [r1, r2]).files p
      = orElseO (findFile r2.files p) (findFile r1.files p) := by
  show findFile (collateStep (collateStep [] r1) r2) p = _
  rw [findFile_collateStep r2 hw2, findFile_collateStep r1 hw1, findFile_nil,
    orElseO_none]

theorem file_dict_keys_of_not_gunc {α : Type} (d : GUNCResultsDirectoryFormat α)
    (hg : guncOutputIsDir d = false) :
    (file_dict d).map Prod.fst = topLevelNames d := by
  unfold file_dict
  rw [if_neg (by simp [hg]), List.map_map]
  have : (Prod.fst ∘ fun n : String => (n, ([n] : RPath))) = id := rfl
  rw [this, List.map_id]

theorem file_dict_keys_nodup {α : Type} (d : GUNCResultsDirectoryFormat α) :
    ((file_dict d).map Prod.fst).Nodup := by
  by_cases hg : guncOutputIsDir d = true
  · unfold file_dict
    rw [if_pos hg]
    simp
  · rw [file_dict_keys_of_not_gunc d (by simpa using hg)]
    exact List.nodup_dedup _

/-- C2: collating two result directories that both provide data for the same
sample `A` yields exactly one subtree for `A`; at every colliding relative
path the merged directory holds the later input's content (last-writer-wins),
and every non-colliding file of the earlier input is still present at its
relative path. -/
theorem collate_last_writer_wins {α : Type}
    (r1 r2 : GUNCResultsDirectoryFormat α) (A : String)
    (hw1 : wfPaths r1) (hw2 : wfPaths r2)
    (hA1 : ∃ f ∈ r1.files, f.1.head? = some A)
    (hA2 : ∃ f ∈ r2.files, f.1.head? = some A)
    (hgo1 : ∀ f ∈ r1.files, ¬(f.1.head? = some ("gunc_output") ∧ 2 ≤ f.1.length))
    (hgo2 : ∀ f ∈ r2.files, ¬(f.1.head? = some ("gunc_output") ∧ 2 ≤ f.1.length)) :
    (((file_dict (collate_gunc_results [r1, r2])).map Prod.fst).count A = 1)
    ∧ (∀ p c, findFile r2.files p = some c →
        findFile (collate_gunc_results [r1, r2]).files p = some c)
    ∧ (∀ p c, findFile r2.files p = none → findFile r1.files p = some c →
        findFile (collate_gunc_results [r1, r2]).files p = some c) := by
  have hpair := findFile_collate_pair r1 r2 hw1 hw2
  have hsub : ∀ q ∈ (collate_gunc_results [r1, r2]).files.map Prod.fst,
      (∃ g ∈ r1.files, g.1 = q) ∨ (∃ g ∈ r2.files, g.1 = q) := by
    intro q hq
    obtain ⟨g, hg, hge⟩ := List.mem_map.mp hq
    have hsome : (findFile (collate_gunc_results [r1, r2]).files q).isSome :=
      (findFile_isSome_iff _ _).mpr ⟨g, hg, hge⟩
    rw [hpair q] at hsome
    cases h2 : findFile r2.files q with
    | some c =>
        exact Or.inr (by
          have := (findFile_isSome_iff r2.files q).mp (by rw [h2]; rfl)
          exact this)
    | none =>
        rw [h2, orElseO_none_left] at hsome
        exact Or.inl ((findFile_isSome_iff r1.files q).mp hsome)
  have hgfalse : guncOutputIsDir (collate_gunc_results [r1, r2]) = false := by
    cases hgc : guncOutputIsDir (collate_gunc_results [r1, r2]) with
    | false => rfl
    | true =>
        exfalso
        obtain ⟨f, hf, hprop⟩ := List.any_eq_true.mp hgc
        have hprop' : f.1.head? = some ("gunc_output") ∧ 2 ≤ f.1.length := by
          constructor
          · have := (Bool.and_eq_true _ _).mp hprop |>.1
            simpa using this
          · have := (Bool.and_eq_true _ _).mp hprop |>.2
            simpa using this
        have hq : f.1 ∈ (collate_gunc_results [r1, r2]).files.map Prod.fst :=
          List.mem_map.mpr ⟨f, hf, rfl⟩
        cases hsub f.1 hq with
        | inl h =>
            obtain ⟨g, hg, hge⟩ := h
            exact hgo1 g hg (by rw [hge]; exact hprop')
        | inr h =>
            obtain ⟨g, hg, hge⟩ := h
            exact hgo2 g hg (by rw [hge]; exact hprop')
  have hAkeys : A ∈ (file_dict (collate_gunc_results [r1, r2])).map Prod.fst := by
    rw [file_dict_keys_of_not_gunc _ hgfalse]
    obtain ⟨f, hf, hfA⟩ := hA2
    have hsome2 : (findFile r2.files f.1).isSome :=
      (findFile_isSome_iff _ _).mpr ⟨f, hf, rfl⟩
    have hsome : (findFile (collate_gunc_results [r1, r2]).files f.1).isSome := by
      rw [hpair f.1]
      cases h2 : findFile r2.files f.1 with
      | some c => rfl
      | none => rw [h2] at hsome2; exact Bool.noConfusion hsome2
    obtain ⟨g, hg, hge⟩ := (findFile_isSome_iff _ _).mp hsome
    apply List.mem_dedup.mpr
    exact List.mem_filterMap.mpr ⟨g, hg, by rw [hge, hfA]⟩
  refine ⟨List.count_eq_one_of_mem (file_dict_keys_nodup _) hAkeys, ?_, ?_⟩
  · intro p c h2
    rw [hpair p, h2]
    rfl
  · intro p c h2 h1
    rw [hpair p, h2, orElseO_none_left, h1]

/-- C2 witness: collating `collateInput1` then `collateInput2` (both covering
sample `A`) keeps one `A` subtree, takes the second input's content at the
colliding summary path, and keeps the first input's non-colliding diamond
file. -/
theorem collate_last_writer_wins_witness :
    (((file_dict (collate_gunc_results [collateInput1, collateInput2])).map
        Prod.fst).count ("A") = 1)
    ∧ findFile (collate_gunc_results [collateInput1, collateInput2]).files
        (["A", "gunc_output", "g1.all_levels.tsv"]) = some ("new")
    ∧ findFile (collate_gunc_results [collateInput1, collateInput2]).files
        (["A", "diamond_output", "g2.out"]) = some ("keep") := by
  obtain ⟨h1, h2, h3⟩ := collate_last_writer_wins collateInput1 collateInput2 ("A")
    (by decide) (by decide) (by decide) (by decide) (by decide) (by decide)
  exact ⟨h1, h2 _ _ (by decide), h3 _ _ (by decide) (by decide)⟩

/-- C10: collating inputs that all enumerate as unpartitioned copies each
subtree directly into the output root (joining the root with the empty sample
identifier is the root itself), so the merged directory again has
`gunc_output` directly under its root and enumerates as unpartitioned. -/
theorem collate_preserves_unpartitioned {α : Type}
    (rs : List (GUNCResultsDirectoryFormat α)) (r : GUNCResultsDirectoryFormat α)
    (hall : ∀ x ∈ rs ++ [r], guncOutputIsDir x = true ∧ wfPaths x) :
    joinSample ("") = ([] : RPath)
    ∧ guncOutputIsDir (collate_gunc_results (rs ++ [r])) = true
    ∧ file_dict (collate_gunc_results (rs ++ [r]))
        = [(("" : String), ([] : RPath))] := by
  have hr := hall r (List.mem_append.mpr (Or.inr (List.mem_cons_self r [])))
  have hlast : (collate_gunc_results (rs ++ [r])).files
      = collateStep (rs.foldl collateStep []) r := by
    show (rs ++ [r]).foldl collateStep [] = _
    rw [List.foldl_append]
    rfl
  obtain ⟨f, hf, hprop⟩ := List.any_eq_true.mp hr.1
  have hsome : (findFile (collate_gunc_results (rs ++ [r])).files f.1).isSome := by
    rw [hlast, findFile_collateStep r hr.2]
    have h2 : (findFile r.files f.1).isSome :=
      (findFile_isSome_iff _ _).mpr ⟨f, hf, rfl⟩
    cases hx : findFile r.files f.1 with
    | some c => rfl
    | none => rw [hx] at h2; exact Bool.noConfusion h2
  obtain ⟨g, hg, hge⟩ := (findFile_isSome_iff _ _).mp hsome
  have hgtrue : guncOutputIsDir (collate_gunc_results (rs ++ [r])) = true := by
    apply List.any_eq_true.mpr
    exact ⟨g, hg, by rw [hge]; exact hprop⟩
  refine ⟨rfl, hgtrue, ?_⟩
  unfold file_dict
  rw [if_pos hgtrue]

/-- C10 witness: collating the single unpartitioned `unpartitionedDir` yields
an unpartitioned merged directory. -/
theorem collate_preserves_unpartitioned_witness :
    joinSample ("") = ([] : RPath)
    ∧ guncOutputIsDir (collate_gunc_results ([] ++ [unpartitionedDir])) = true
    ∧ file_dict (collate_gunc_results ([] ++ [unpartitionedDir]))
        = [(("" : String), ([] : RPath))] :=
  collate_preserves_unpartitioned [] unpartitionedDir (by decide)

end Q2Gunc

namespace Q2Gunc

theorem flatMap_nil_of_all {α β : Type} (l : List α) (f : α → List β)
    (h : ∀ a ∈ l, f a = []) : l.flatMap f = [] := by
  induction l with
  | nil => rfl
  | cons a t ih =>
      rw [List.flatMap_cons, h a (List.mem_cons_self a t), List.nil_append]
      exact ih (fun b hb => h b (List.mem_cons_of_mem a hb))

/-- C1 counterexample: the code's extraction coerces the `pass.GUNC` strings
"fail", "false", "no" and "0" all to `true` (Python truthiness of a nonempty
string), while the claim's permissive coercion maps each of them to
`false`. -/
theorem process_sample_bool_cast_counterexample :
    ((process_sample ("s1") passStringsDir.files ["s1"]).2.2.map
        (fun r => r.pass_gunc)) = [true, true, true, true]
    ∧ ([CellValue.strVal ("fail"), CellValue.strVal ("false"),
        CellValue.strVal ("no"), CellValue.strVal ("0")].map specPassCoerce)
        = [false, false, false, false] := by
  constructor
  · decide
  · decide

/-- C1 amended: every summary record's `pass_gunc` is the Python `bool(...)`
cast of the row's `pass.GUNC` cell — native booleans pass through unchanged,
a string coerces to true iff it is nonempty (so "fail", "false", "no", "0"
as strings coerce to true), and a numeric value coerces to true iff it is
nonzero. -/
theorem process_sample_pass_gunc_truthiness (sid : String)
    (fs : List (RPath × GUNCFile)) (spath : RPath) :
    (∀ r ∈ (process_sample sid fs spath).2.2,
      ∃ sf ∈ globAllLevelsFiles fs spath, ∃ row ∈ sf.2.rows,
        r = mkSummaryRecord sid row ∧ r.pass_gunc = pyBool row.passGUNC)
    ∧ (∀ b, pyBool (CellValue.boolVal b) = b)
    ∧ (∀ s, pyBool (CellValue.strVal s) = !(s == ""))
    ∧ (∀ n : Int, pyBool (CellValue.intVal n) = !(n == 0)) := by
  refine ⟨?_, fun b => rfl, fun s => rfl, fun n => rfl⟩
  intro r hr
  rw [show (process_sample sid fs spath).2.2
      = (globAllLevelsFiles fs spath).flatMap
          (fun sf => sf.2.rows.map (fun row => mkSummaryRecord sid row))
    from rfl] at hr
  obtain ⟨sf, hsf, hmem⟩ := List.mem_flatMap.mp hr
  obtain ⟨row, hrow, heq⟩ := List.mem_map.mp hmem
  exact ⟨sf, hsf, row, hrow, heq.symm, by rw [← heq]; rfl⟩

/-- C1 amended witness: the record extracted from the "fail" row of
`passStringsDir` traces back to a source row whose cell it coerces with
`bool(...)`. -/
theorem process_sample_pass_gunc_truthiness_witness :
    ∃ sf ∈ globAllLevelsFiles passStringsDir.files (["s1"] : RPath),
      ∃ row ∈ sf.2.rows,
        mkSummaryRecord ("s1") (baseRow (CellValue.strVal ("fail")))
            = mkSummaryRecord ("s1") row
          ∧ (mkSummaryRecord ("s1") (baseRow (CellValue.strVal ("fail")))).pass_gunc
            = pyBool row.passGUNC :=
  (process_sample_pass_gunc_truthiness ("s1") passStringsDir.files ["s1"]).1
    (mkSummaryRecord ("s1") (baseRow (CellValue.strVal ("fail")))) (by decide)

/-- C4: when no file matches the all-levels TSV pattern under any enumerated
sample's `gunc_output` subtree, the transformer raises an error whose message
contains "No GUNC results" instead of producing an empty table. -/
theorem read_dataframes_no_results_error (d : GUNCResultsDirectoryFormat GUNCFile)
    (h : ∀ sp ∈ file_dict d, globAllLevelsGlob d.files sp.2 = []) :
    read_dataframes d
        = Except.error ("No GUNC results found in the directory format")
    ∧ containsSubstring ("No GUNC results".toList)
        ("No GUNC results found in the directory format".toList) = true := by
  constructor
  · unfold read_dataframes
    have hframes : (file_dict d).flatMap
        (fun sp => (globAllLevelsGlob d.files sp.2).map (fun mf => (sp.1, mf.2)))
        = [] := by
      apply flatMap_nil_of_all
      intro sp hsp
      rw [h sp hsp]
      rfl
    rw [hframes]
    rfl
  · decide

/-- C4 witness: an empty result directory triggers the error. -/
theorem read_dataframes_no_results_error_witness :
    read_dataframes ({ files := [] } : GUNCResultsDirectoryFormat GUNCFile)
        = Except.error ("No GUNC results found in the directory format")
    ∧ containsSubstring ("No GUNC results".toList)
        ("No GUNC results found in the directory format".toList) = true :=
  read_dataframes_no_results_error ({ files := [] }) (by decide)

/-- C8: the genome identifiers reported for a sample are exactly the
filenames of its `diamond_output` collection cut at the first period; every
diamond entry contributes its identifier (even with zero summary rows), and
the identifier list depends only on the diamond collection, not on any
summary content. -/
theorem process_sample_mag_ids (sid sid' : String)
    (fs fs' : List (RPath × GUNCFile)) (spath spath' : RPath) :
    ((process_sample sid fs spath).2.1 = (diamondOutputNames fs spath).map magIdOf)
    ∧ (∀ nm ∈ diamondOutputNames fs spath,
        magIdOf nm ∈ (process_sample sid fs spath).2.1)
    ∧ (diamondOutputNames fs spath = diamondOutputNames fs' spath' →
        (process_sample sid fs spath).2.1 = (process_sample sid' fs' spath').2.1) := by
  refine ⟨rfl, ?_, ?_⟩
  · intro nm hnm
    show magIdOf nm ∈ (diamondOutputNames fs spath).map magIdOf
    exact List.mem_map_of_mem magIdOf hnm
  · intro he
    show (diamondOutputNames fs spath).map magIdOf
        = (diamondOutputNames fs' spath').map magIdOf
    rw [he]

/-- C8 witness: genome `g2` appears in `diamond_output` with zero summary
rows and still contributes identifier `g2`; adding a summary file does not
change the identifier list. -/
theorem process_sample_mag_ids_witness :
    (magIdOf ("g2.contigs.out")
        ∈ (process_sample ("s1") diamondOnlyDir.files ["s1"]).2.1)
    ∧ (process_sample ("s1") diamondOnlyDir.files ["s1"]).2.1
        = (process_sample ("sX") diamondPlusDir.files ["s1"]).2.1 := by
  obtain ⟨h1, h2, h3⟩ := process_sample_mag_ids ("s1") ("sX")
    diamondOnlyDir.files diamondPlusDir.files ["s1"] ["s1"]
  exact ⟨h2 ("g2.contigs.out") (by decide), h3 (by decide)⟩

theorem visualizeAgg_loop (d : GUNCResultsDirectoryFormat GUNCFile) :
    ∀ (order : List (String × RPath)) (m : List (String × List String))
      (s : List SummaryRecord),
      ((order.map Prod.fst).Nodup) →
      (∀ sp ∈ order, m.any (fun kv => kv.1 == sp.1) = false) →
      order.foldl (visualizeStep d) (m, s)
        = (m ++ order.map (fun sp => (sp.1, (process_sample sp.1 d.files sp.2).2.1)),
           s ++ order.flatMap (fun sp => (process_sample sp.1 d.files sp.2).2.2)) := by
  intro order
  induction order with
  | nil =>
      intro m s _ _
      simp
  | cons sp rest ih =>
      intro m s hnd hdisj
      rw [List.foldl_cons]
      rw [show visualizeStep d (m, s) sp
          = (dictInsert m sp.1 (process_sample sp.1 d.files sp.2).2.1,
             s ++ (process_sample sp.1 d.files sp.2).2.2) from rfl]
      have hins : dictInsert m sp.1 (process_sample sp.1 d.files sp.2).2.1
          = m ++ [(sp.1, (process_sample sp.1 d.files sp.2).2.1)] := by
        unfold dictInsert
        rw [if_neg]
        intro hany
        rw [hdisj sp (List.mem_cons_self sp rest)] at hany
        exact Bool.false_ne_true hany
      rw [hins]
      rw [List.map_cons] at hnd
      have hnd' : (rest.map Prod.fst).Nodup := (List.nodup_cons.mp hnd).2
      have hnotin : sp.1 ∉ rest.map Prod.fst := (List.nodup_cons.mp hnd).1
      have hdisj' : ∀ sp' ∈ rest,
          (m ++ [(sp.1, (process_sample sp.1 d.files sp.2).2.1)]).any
            (fun kv => kv.1 == sp'.1) = false := by
        intro sp' hsp'
        rw [List.any_append, hdisj sp' (List.mem_cons_of_mem sp hsp')]
        have hne : (sp.1 == sp'.1) = false := by
          apply beq_eq_false_iff_ne.mpr
          intro he
          apply hnotin
          rw [he]
          exact List.mem_map_of_mem Prod.fst hsp'
        simp [List.any_cons, hne]
      rw [ih (m ++ [(sp.1, (process_sample sp.1 d.files sp.2).2.1)])
        (s ++ (process_sample sp.1 d.files sp.2).2.2) hnd' hdisj']
      rw [List.map_cons, List.flatMap_cons, List.append_assoc, List.append_assoc]
      rfl

/-- C3: the report builder's aggregate content does not depend on the worker
pool's completion order (the only effect of the pool size): for any two
completion orders of the same `file_dict`, the sample→genome-list mappings
are permutations of each other, the summary-record lists are permutations of
each other, the mapping's keys are exactly the enumerated sample keys, and
the summary list's length is the sum of the per-sample record counts. -/
theorem visualize_thread_invariance (d : GUNCResultsDirectoryFormat GUNCFile)
    (o1 o2 : List (String × RPath))
    (h1 : o1.Perm (file_dict d)) (h2 : o2.Perm (file_dict d)) :
    ((visualizeAgg d o1).1).Perm ((visualizeAgg d o2).1)
    ∧ ((visualizeAgg d o1).2).Perm ((visualizeAgg d o2).2)
    ∧ (((visualizeAgg d o1).1).map Prod.fst).Perm ((file_dict d).map Prod.fst)
    ∧ ((visualizeAgg d o1).2).length
        = ((file_dict d).map
            (fun sp => ((process_sample sp.1 d.files sp.2).2.2).length)).sum := by
  have hk := file_dict_keys_nodup d
  have hnd1 : (o1.map Prod.fst).Nodup := ((h1.map Prod.fst).nodup_iff).mpr hk
  have hnd2 : (o2.map Prod.fst).Nodup := ((h2.map Prod.fst).nodup_iff).mpr hk
  have he1 : visualizeAgg d o1
      = (o1.map (fun sp => (sp.1, (process_sample sp.1 d.files sp.2).2.1)),
         o1.flatMap (fun sp => (process_sample sp.1 d.files sp.2).2.2)) := by
    unfold visualizeAgg
    rw [visualizeAgg_loop d o1 [] [] hnd1 (fun sp _ => rfl)]
    rfl
  have he2 : visualizeAgg d o2
      = (o2.map (fun sp => (sp.1, (process_sample sp.1 d.files sp.2).2.1)),
         o2.flatMap (fun sp => (process_sample sp.1 d.files sp.2).2.2)) := by
    unfold visualizeAgg
    rw [visualizeAgg_loop d o2 [] [] hnd2 (fun sp _ => rfl)]
    rfl
  have hp : o1.Perm o2 := h1.trans h2.symm
  refine ⟨?_, ?_, ?_, ?_⟩
  · rw [he1, he2]
    exact hp.map _
  · rw [he1, he2]
    exact hp.flatMap_right _
  · rw [he1]
    show ((o1.map (fun sp => (sp.1, (process_sample sp.1 d.files sp.2).2.1))).map
        Prod.fst).Perm ((file_dict d).map Prod.fst)
    rw [List.map_map]
    have hcomp : (Prod.fst ∘ (fun sp : String × RPath =>
        (sp.1, (process_sample sp.1 d.files sp.2).2.1))) = Prod.fst := rfl
    rw [hcomp]
    exact h1.map Prod.fst
  · rw [he1]
    show ((o1.flatMap (fun sp => (process_sample sp.1 d.files sp.2).2.2)).length) = _
    rw [List.length_flatMap]
    exact (h1.map (fun sp => ((process_sample sp.1 d.files sp.2).2.2).length)).sum_eq

/-- C3 witness: for `twoSampleDir`, running the aggregation in enumeration
order and in reversed order (as a 1-thread and a many-thread pool might)
gives permutation-equal aggregates with the expected key set and summary
count. -/
theorem visualize_thread_invariance_witness :
    ((visualizeAgg twoSampleDir (file_dict twoSampleDir)).1).Perm
      ((visualizeAgg twoSampleDir ((file_dict twoSampleDir).reverse)).1)
    ∧ ((visualizeAgg twoSampleDir (file_dict twoSampleDir)).2).Perm
      ((visualizeAgg twoSampleDir ((file_dict twoSampleDir).reverse)).2)
    ∧ (((visualizeAgg twoSampleDir (file_dict twoSampleDir)).1).map Prod.fst).Perm
      ((file_dict twoSampleDir).map Prod.fst)
    ∧ ((visualizeAgg twoSampleDir (file_dict twoSampleDir)).2).length
        = ((file_dict twoSampleDir).map
            (fun sp =>
              ((process_sample sp.1 twoSampleDir.files sp.2).2.2).length)).sum :=
  visualize_thread_invariance twoSampleDir (file_dict twoSampleDir)
    ((file_dict twoSampleDir).reverse) (by decide) (by decide)

end Q2Gunc
